import Mathlib

/-!
# Verification of the trading decision core

A shallow embedding of the decision engine in `trading_core.py`:
position reconstruction from the trade journal (`has_open_spot`,
`has_open_futures_short`, `has_open_futures_long`), quantity flooring
(`floor_qty`), indicator voting and aggregation, and the per-symbol
trade-mode policy of `analyze_and_trade_for_user`.

Numeric values are modelled as rationals, journal records as a structure
mirroring the JSON trade records, and timestamps as strings compared
lexicographically by code point (as Python compares them with `>`).
String comparison and ASCII lowercasing are defined by structural
recursion over the character list so that all definitions evaluate.
-/

/-- ASCII lowercasing of one character, as Python's `str.lower` acts on
the ASCII side strings `"Buy"` / `"Sell"` stored in the journal. -/
def lowerChar (c : Char) : Char :=
  if 65 ≤ c.toNat ∧ c.toNat ≤ 90 then Char.ofNat (c.toNat + 32) else c

/-- Lowercasing of a string, character by character. -/
def lowerStr (s : String) : String := ⟨s.data.map lowerChar⟩

/-- Lexicographic comparison of character lists by code point. -/
def charListLt : List Char → List Char → Bool
  | _, [] => false
  | [], _ :: _ => true
  | a :: as, b :: bs =>
      decide (a.toNat < b.toNat) || (decide (a.toNat = b.toNat) && charListLt as bs)

/-- Python's `<` on strings: lexicographic comparison by code point. -/
def tsLt (a b : String) : Bool := charListLt a.data b.data

/-- A journal record, mirroring the dictionaries appended to `trades.json`
by `trading_core.py`.  `qty` is optional because `rec.get("qty", 0)`
tolerates a missing key; `action` defaults to the empty string as in
`t.get("action", "")`; `dry` is the simulated-trade marker. -/
structure TradeRecord where
  user_id : String
  symbol : String
  market_type : String
  side : String
  action : String
  qty : Option ℚ
  price : ℚ
  leverage : Option ℤ
  timestamp : String
  dry : Bool
deriving DecidableEq

/-- The value `float(rec.get("qty", 0) or 0)` used when closing from a
recorded position. -/
def qty_of (t : TradeRecord) : ℚ := t.qty.getD 0

/-- The last element of the journal satisfying `p`, in insertion order:
the loops in `has_open_spot` / `has_open_futures_*` keep overwriting
`last_buy` / `last_open` etc., so they retain the physically last match. -/
def lastMatch (p : TradeRecord → Bool) (l : List TradeRecord) : Option TradeRecord :=
  l.foldl (fun acc t => if p t then some t else acc) none

/-- Filter for spot records of an account and symbol with side `buy`
(`trading_core.py:427-441`). -/
def spotOpenClass (uid sym : String) (t : TradeRecord) : Bool :=
  t.user_id == uid && t.symbol == sym && t.market_type == "spot" &&
    lowerStr t.side == "buy"

/-- Filter for spot records of an account and symbol with side `sell`. -/
def spotCloseClass (uid sym : String) (t : TradeRecord) : Bool :=
  t.user_id == uid && t.symbol == sym && t.market_type == "spot" &&
    lowerStr t.side == "sell"

/-- Futures short open: `side == "sell" and action == "open"`
(`trading_core.py:460`). -/
def shortOpenClass (uid sym : String) (t : TradeRecord) : Bool :=
  t.user_id == uid && t.symbol == sym && t.market_type == "futures" &&
    lowerStr t.side == "sell" && t.action == "open"

/-- Futures short close: `side == "buy" and action == "close"`. -/
def shortCloseClass (uid sym : String) (t : TradeRecord) : Bool :=
  t.user_id == uid && t.symbol == sym && t.market_type == "futures" &&
    lowerStr t.side == "buy" && t.action == "close"

/-- Futures long open: `side == "buy" and action == "open"`
(`trading_core.py:481`). -/
def longOpenClass (uid sym : String) (t : TradeRecord) : Bool :=
  t.user_id == uid && t.symbol == sym && t.market_type == "futures" &&
    lowerStr t.side == "buy" && t.action == "open"

/-- Futures long close: `side == "sell" and action == "close"`. -/
def longCloseClass (uid sym : String) (t : TradeRecord) : Bool :=
  t.user_id == uid && t.symbol == sym && t.market_type == "futures" &&
    lowerStr t.side == "sell" && t.action == "close"

/-- Common tail of the three reconstruction functions: with `last_open`
and `last_close` the physically last matching records, return
`last_open` if it exists and either no close exists or
`last_open.timestamp > last_close.timestamp` (strict string comparison),
else `None`. -/
def partitionOpen (openP closeP : TradeRecord → Bool) (trades : List TradeRecord) :
    Option TradeRecord :=
  match lastMatch openP trades, lastMatch closeP trades with
  | some o, none => some o
  | some o, some c => if tsLt c.timestamp o.timestamp then some o else none
  | none, _ => none

/-- `has_open_spot` (`trading_core.py:427-445`), parameterised by the
journal contents instead of reading `trades.json`. -/
def has_open_spot (user_id symbol : String) (trades : List TradeRecord) :
    Option TradeRecord :=
  partitionOpen (spotOpenClass user_id symbol) (spotCloseClass user_id symbol) trades

/-- `has_open_futures_short` (`trading_core.py:447-466`). -/
def has_open_futures_short (user_id symbol : String) (trades : List TradeRecord) :
    Option TradeRecord :=
  partitionOpen (shortOpenClass user_id symbol) (shortCloseClass user_id symbol) trades

/-- `has_open_futures_long` (`trading_core.py:468-487`). -/
def has_open_futures_long (user_id symbol : String) (trades : List TradeRecord) :
    Option TradeRecord :=
  partitionOpen (longOpenClass user_id symbol) (longCloseClass user_id symbol) trades

/-- Fold step computing the maximal timestamp of a list of records. -/
def maxTsStep (acc : Option String) (t : TradeRecord) : Option String :=
  match acc with
  | none => some t.timestamp
  | some m => some (if tsLt m t.timestamp then t.timestamp else m)

/-- The lexicographically maximal timestamp among a list of records. -/
def maxTs (l : List TradeRecord) : Option String := l.foldl maxTsStep none

/-- The spec's recency criterion (spec §4.3): a partition is open iff an
open-class record exists and either no close-class record exists or the
maximal open-class timestamp is strictly greater than the maximal
close-class timestamp.  This definition follows the spec's words and is
compared against the code's `partitionOpen`. -/
def specPartitionOpen (openP closeP : TradeRecord → Bool) (trades : List TradeRecord) :
    Bool :=
  match maxTs (trades.filter openP), maxTs (trades.filter closeP) with
  | some mo, some mc => tsLt mc mo
  | some _, none => true
  | none, _ => false

/-! ## Order facts about the timestamp comparison -/

theorem charListLt_connect :
    ∀ a b : List Char, charListLt a b = false → charListLt b a = false → a = b := by
  intro a
  induction a with
  | nil =>
    intro b h1 h2
    cases b with
    | nil => rfl
    | cons c cs => simp [charListLt] at h1
  | cons x xs ih =>
    intro b h1 h2
    cases b with
    | nil => simp [charListLt] at h2
    | cons y ys =>
      simp [charListLt] at h1 h2
      have hxy : x.toNat = y.toNat := le_antisymm h2.1 h1.1
      have hc : x = y := by
        have := congrArg Char.ofNat hxy
        rwa [Char.ofNat_toNat, Char.ofNat_toNat] at this
      subst hc
      have := ih ys (h1.2 rfl) (h2.2 rfl)
      rw [this]

theorem tsLt_connect (a b : String) (h1 : tsLt a b = false) (h2 : tsLt b a = false) :
    a = b := by
  cases a; cases b
  exact congrArg String.mk (charListLt_connect _ _ h1 h2)

/-! ## Recency: physically-last record versus maximal timestamp -/

theorem lastMatch_append (p : TradeRecord → Bool) (l : List TradeRecord) (x : TradeRecord) :
    lastMatch p (l ++ [x]) = if p x then some x else lastMatch p l := by
  simp [lastMatch, List.foldl_append]

theorem maxTs_append (l : List TradeRecord) (x : TradeRecord) :
    maxTs (l ++ [x]) = maxTsStep (maxTs l) x := by
  simp [maxTs, List.foldl_append]

/-- If every timestamp in `l` is at most `b` (in the sense that `b` is not
less than it), then the maximal timestamp of `l`, when it exists, is at
most `b`. -/
theorem maxTs_le_of_forall (l : List TradeRecord) (b : String)
    (h : ∀ t ∈ l, tsLt b t.timestamp = false) :
    ∀ m, maxTs l = some m → tsLt b m = false := by
  induction l using List.reverseRecOn with
  | nil => intro m hm; simp [maxTs] at hm
  | append_singleton l x ih =>
    intro m hm
    rw [maxTs_append] at hm
    have hx : tsLt b x.timestamp = false := h x (by simp)
    cases hml : maxTs l with
    | none =>
      rw [hml] at hm
      simp [maxTsStep] at hm
      rw [← hm]; exact hx
    | some m0 =>
      rw [hml] at hm
      simp [maxTsStep] at hm
      have hm0 : tsLt b m0 = false := ih (fun t ht => h t (by simp [ht])) m0 hml
      by_cases hc : tsLt m0 x.timestamp = true
      · rw [if_pos hc] at hm; rw [← hm]; exact hx
      · rw [if_neg hc] at hm; rw [← hm]; exact hm0

/-- On a journal whose records appear in non-decreasing timestamp order,
the timestamp of the physically last record matching `p` is the maximal
timestamp among records matching `p`. -/
theorem lastMatch_timestamp_eq_maxTs (p : TradeRecord → Bool) (l : List TradeRecord)
    (hs : l.Pairwise fun a b => tsLt b.timestamp a.timestamp = false) :
    (lastMatch p l).map (fun t => t.timestamp) = maxTs (l.filter p) := by
  induction l using List.reverseRecOn with
  | nil => simp [lastMatch, maxTs]
  | append_singleton l x ih =>
    rw [List.pairwise_append] at hs
    obtain ⟨hl, _, hcross⟩ := hs
    have hbound : ∀ t ∈ l, tsLt x.timestamp t.timestamp = false :=
      fun t ht => hcross t ht x (by simp)
    rw [lastMatch_append, List.filter_append]
    by_cases hp : p x
    · rw [if_pos hp]
      have : List.filter p [x] = [x] := by simp [hp]
      rw [this, maxTs_append]
      cases hml : maxTs (l.filter p) with
      | none => simp [maxTsStep]
      | some m =>
        have hm : tsLt x.timestamp m = false :=
          maxTs_le_of_forall (l.filter p) x.timestamp
            (fun t ht => hbound t (List.mem_of_mem_filter ht)) m hml
        simp only [maxTsStep]
        by_cases hc : tsLt m x.timestamp = true
        · rw [if_pos hc]; rfl
        · have heq : m = x.timestamp :=
            tsLt_connect m x.timestamp (by simpa using hc) hm
          rw [if_neg hc, heq]; rfl
    · have hp' : p x = false := by simpa using hp
      rw [if_neg (by simp [hp']), List.filter_cons, if_neg (by simp [hp'])]
      simp only [List.filter_nil, List.append_nil]
      exact ih hl

/-- On a timestamp-sorted journal, the code's openness test (physically
last open/close records compared by timestamp) agrees with the spec's
maximal-timestamp criterion. -/
theorem partitionOpen_isSome_eq_spec (p q : TradeRecord → Bool) (l : List TradeRecord)
    (hs : l.Pairwise fun a b => tsLt b.timestamp a.timestamp = false) :
    (partitionOpen p q l).isSome = specPartitionOpen p q l := by
  have ho := lastMatch_timestamp_eq_maxTs p l hs
  have hc := lastMatch_timestamp_eq_maxTs q l hs
  cases eo : lastMatch p l with
  | none =>
    have ho' : maxTs (l.filter p) = none := by rw [← ho, eo]; rfl
    cases ec : lastMatch q l with
    | none =>
      have hc' : maxTs (l.filter q) = none := by rw [← hc, ec]; rfl
      simp [partitionOpen, specPartitionOpen, eo, ec, ho', hc']
    | some c =>
      have hc' : maxTs (l.filter q) = some c.timestamp := by rw [← hc, ec]; rfl
      simp [partitionOpen, specPartitionOpen, eo, ec, ho', hc']
  | some o =>
    have ho' : maxTs (l.filter p) = some o.timestamp := by rw [← ho, eo]; rfl
    cases ec : lastMatch q l with
    | none =>
      have hc' : maxTs (l.filter q) = none := by rw [← hc, ec]; rfl
      simp [partitionOpen, specPartitionOpen, eo, ec, ho', hc']
    | some c =>
      have hc' : maxTs (l.filter q) = some c.timestamp := by rw [← hc, ec]; rfl
      simp only [partitionOpen, specPartitionOpen, eo, ec, ho', hc']
      by_cases ht : tsLt c.timestamp o.timestamp = true
      · rw [if_pos ht, ht]; rfl
      · have ht' : tsLt c.timestamp o.timestamp = false := by simpa using ht
        rw [ht', if_neg (by simp [ht'])]; rfl

/-- C1 counterexample journal: two spot buys whose timestamps are out of
insertion order, followed by a spot sell between them in time. -/
def c1Journal : List TradeRecord :=
  [⟨"1", "BTCUSDT", "spot", "Buy", "", some 1, 100, none, "3", false⟩,
   ⟨"1", "BTCUSDT", "spot", "Buy", "", some 1, 100, none, "1", false⟩,
   ⟨"1", "BTCUSDT", "spot", "Sell", "", some 1, 100, none, "2", false⟩]

/-- C1 (counterexample): on a journal whose records are not in timestamp
order, the maximal open-class timestamp ("3") exceeds the maximal
close-class timestamp ("2"), so the claim's criterion reports the spot
partition open; but the code compares the physically last buy (timestamp
"1") against the last sell ("2") and reports it closed.  Recency is thus
not decided purely by the timestamp field for every insertion order. -/
theorem claim_C1_cex :
    specPartitionOpen (spotOpenClass "1" "BTCUSDT") (spotCloseClass "1" "BTCUSDT")
        c1Journal = true
    ∧ (has_open_spot "1" "BTCUSDT" c1Journal).isSome = false := by
  constructor <;> decide

/-- C1 (amended): for every journal whose records appear in
non-decreasing timestamp order — the situation produced by append-only
journaling — each of the three partitions (spot, futures long, futures
short) is reported open exactly when the claim's maximal-timestamp
criterion holds: an open-class record exists and either no close-class
record exists or the maximal open-class timestamp is strictly greater
than the maximal close-class timestamp. -/
theorem claim_C1 (uid sym : String) (j : List TradeRecord)
    (hs : j.Pairwise fun a b => tsLt b.timestamp a.timestamp = false) :
    (has_open_spot uid sym j).isSome
        = specPartitionOpen (spotOpenClass uid sym) (spotCloseClass uid sym) j
    ∧ (has_open_futures_long uid sym j).isSome
        = specPartitionOpen (longOpenClass uid sym) (longCloseClass uid sym) j
    ∧ (has_open_futures_short uid sym j).isSome
        = specPartitionOpen (shortOpenClass uid sym) (shortCloseClass uid sym) j :=
  ⟨partitionOpen_isSome_eq_spec _ _ j hs,
   partitionOpen_isSome_eq_spec _ _ j hs,
   partitionOpen_isSome_eq_spec _ _ j hs⟩

/-- Sorted journal used to witness `claim_C1`. -/
def c1SortedJournal : List TradeRecord :=
  [⟨"1", "BTCUSDT", "spot", "Buy", "", some 1, 100, none, "2026-01-01T00:00:00", false⟩,
   ⟨"1", "BTCUSDT", "spot", "Sell", "", some 1, 110, none, "2026-01-02T00:00:00", false⟩,
   ⟨"1", "BTCUSDT", "futures", "Sell", "open", some 1, 110, some 3, "2026-01-03T00:00:00", false⟩]

/-- Witness for `claim_C1` on a concrete sorted journal: the spot
partition is closed and the futures-short partition is open, matching
the spec criterion. -/
theorem claim_C1_witness :
    (has_open_spot "1" "BTCUSDT" c1SortedJournal).isSome
        = specPartitionOpen (spotOpenClass "1" "BTCUSDT") (spotCloseClass "1" "BTCUSDT")
            c1SortedJournal
    ∧ (has_open_futures_long "1" "BTCUSDT" c1SortedJournal).isSome
        = specPartitionOpen (longOpenClass "1" "BTCUSDT") (longCloseClass "1" "BTCUSDT")
            c1SortedJournal
    ∧ (has_open_futures_short "1" "BTCUSDT" c1SortedJournal).isSome
        = specPartitionOpen (shortOpenClass "1" "BTCUSDT") (shortCloseClass "1" "BTCUSDT")
            c1SortedJournal :=
  claim_C1 "1" "BTCUSDT" c1SortedJournal (by decide)

/-! ## Quantity flooring (`floor_qty`, `trading_core.py:410-417`) -/

/-- `floor_qty(q, prec)`: zero for non-positive `q`, otherwise
`math.floor(q * 10**prec) / 10**prec`. -/
def floor_qty (q : ℚ) (prec : ℕ) : ℚ :=
  if q ≤ 0 then 0
  else (Int.floor (q * 10 ^ prec) : ℚ) / 10 ^ prec

/-- C7 (confirmed): `floor_qty` returns 0 for every non-positive input,
equals `floor(q * 10^prec) / 10^prec` for positive `q`, and takes the
three concrete values stated in the claim. -/
theorem claim_C7 :
    (∀ (q : ℚ) (prec : ℕ), q ≤ 0 → floor_qty q prec = 0)
    ∧ (∀ (q : ℚ) (prec : ℕ), 0 < q →
        floor_qty q prec = (Int.floor (q * 10 ^ prec) : ℚ) / 10 ^ prec)
    ∧ floor_qty (123456789 / 10 ^ 9) 6 = 123456 / 10 ^ 6
    ∧ floor_qty (-1) 6 = 0
    ∧ floor_qty 0 6 = 0 := by
  refine ⟨fun q prec h => if_pos h, fun q prec h => if_neg (not_le.mpr h), ?_, ?_, ?_⟩
  · norm_num [floor_qty]
  · decide
  · decide

/-- Witness for `claim_C7`: the hypothesis-bearing conjuncts applied at
concrete inputs. -/
theorem claim_C7_witness :
    floor_qty (-2) 3 = 0
    ∧ floor_qty (1 / 2) 1 = (Int.floor ((1 / 2 : ℚ) * 10 ^ 1) : ℚ) / 10 ^ 1 :=
  ⟨claim_C7.1 (-2) 3 (by norm_num), claim_C7.2.1 (1 / 2) 1 (by norm_num)⟩

/-! ## Dry-run marker does not influence position reconstruction (C9) -/

/-- Rewrite the `dry` field of a record by an arbitrary rule, leaving all
other fields unchanged. -/
def setDry (d : TradeRecord → Bool) (t : TradeRecord) : TradeRecord :=
  { t with dry := d t }

theorem lastMatch_map_setDry (p : TradeRecord → Bool) (d : TradeRecord → Bool)
    (hp : ∀ t, p (setDry d t) = p t) (l : List TradeRecord) :
    lastMatch p (l.map (setDry d)) = (lastMatch p l).map (setDry d) := by
  induction l using List.reverseRecOn with
  | nil => rfl
  | append_singleton l x ih =>
    rw [List.map_append, List.map_singleton, lastMatch_append, lastMatch_append, hp x]
    by_cases hx : p x = true
    · rw [if_pos hx, if_pos hx]; rfl
    · rw [if_neg hx, if_neg hx]; exact ih

theorem partitionOpen_map_setDry (p q : TradeRecord → Bool) (d : TradeRecord → Bool)
    (hp : ∀ t, p (setDry d t) = p t) (hq : ∀ t, q (setDry d t) = q t)
    (l : List TradeRecord) :
    partitionOpen p q (l.map (setDry d)) = (partitionOpen p q l).map (setDry d) := by
  unfold partitionOpen
  rw [lastMatch_map_setDry p d hp, lastMatch_map_setDry q d hq]
  cases lastMatch p l with
  | none => rfl
  | some o =>
    cases lastMatch q l with
    | none => rfl
    | some c =>
      show (if tsLt c.timestamp o.timestamp then some (setDry d o) else none)
          = Option.map (setDry d) (if tsLt c.timestamp o.timestamp then some o else none)
      by_cases ht : tsLt c.timestamp o.timestamp = true
      · rw [if_pos ht, if_pos ht]; rfl
      · rw [if_neg ht, if_neg ht]; rfl

/-- C9 (confirmed): position reconstruction is insensitive to the
simulated-trade marker.  Rewriting the `dry` field of every record by an
arbitrary rule (which includes toggling any single record) changes the
result of `has_open_spot`, `has_open_futures_long` and
`has_open_futures_short` only by the same rewriting of the returned
record; in particular whether each partition counts as open, and the
recorded quantity used for closing, are unchanged. -/
theorem claim_C9 (uid sym : String) (j : List TradeRecord) (d : TradeRecord → Bool) :
    has_open_spot uid sym (j.map (setDry d)) = (has_open_spot uid sym j).map (setDry d)
    ∧ (has_open_spot uid sym (j.map (setDry d))).isSome = (has_open_spot uid sym j).isSome
    ∧ (has_open_spot uid sym (j.map (setDry d))).map qty_of
        = (has_open_spot uid sym j).map qty_of
    ∧ has_open_futures_long uid sym (j.map (setDry d))
        = (has_open_futures_long uid sym j).map (setDry d)
    ∧ (has_open_futures_long uid sym (j.map (setDry d))).isSome
        = (has_open_futures_long uid sym j).isSome
    ∧ has_open_futures_short uid sym (j.map (setDry d))
        = (has_open_futures_short uid sym j).map (setDry d)
    ∧ (has_open_futures_short uid sym (j.map (setDry d))).isSome
        = (has_open_futures_short uid sym j).isSome := by
  have hspot := partitionOpen_map_setDry (spotOpenClass uid sym) (spotCloseClass uid sym) d
    (fun t => rfl) (fun t => rfl) j
  have hlong := partitionOpen_map_setDry (longOpenClass uid sym) (longCloseClass uid sym) d
    (fun t => rfl) (fun t => rfl) j
  have hshort := partitionOpen_map_setDry (shortOpenClass uid sym) (shortCloseClass uid sym) d
    (fun t => rfl) (fun t => rfl) j
  refine ⟨hspot, ?_, ?_, hlong, ?_, hshort, ?_⟩
  · simp only [has_open_spot]; rw [hspot]
    cases partitionOpen (spotOpenClass uid sym) (spotCloseClass uid sym) j <;> rfl
  · simp only [has_open_spot]; rw [hspot]
    cases partitionOpen (spotOpenClass uid sym) (spotCloseClass uid sym) j <;> rfl
  · simp only [has_open_futures_long]; rw [hlong]
    cases partitionOpen (longOpenClass uid sym) (longCloseClass uid sym) j <;> rfl
  · simp only [has_open_futures_short]; rw [hshort]
    cases partitionOpen (shortOpenClass uid sym) (shortCloseClass uid sym) j <;> rfl

/-! ## Indicator votes and aggregation (`trading_core.py:626-709`) -/

/-- An indicator's directional vote. -/
inductive Vote
  | buy
  | sell
  | abstain
deriving DecidableEq

/-- RSI vote (`trading_core.py:636-639`): buy if the latest RSI is at most
the oversold threshold, sell if at least the overbought threshold, else
abstain. -/
def rsiVoteVal (lr oversold overbought : ℚ) : Vote :=
  if lr ≤ oversold then Vote.buy
  else if overbought ≤ lr then Vote.sell
  else Vote.abstain

/-- EMA-cross vote on the latest fast/slow values
(`trading_core.py:654-657`): buy if fast > slow, else sell. -/
def emaVoteVal (lf ls : ℚ) : Vote :=
  if ls < lf then Vote.buy else Vote.sell

/-- MACD vote on the latest histogram value (`trading_core.py:670-673`):
buy if it is positive, else sell. -/
def macdVoteVal (hlast : ℚ) : Vote :=
  if 0 < hlast then Vote.buy else Vote.sell

/-- Open-interest vote (`trading_core.py:692-695`): buy if the percent
change is at least the threshold, sell if at most its negation, else
abstain. -/
def oiVoteVal (pct thr : ℚ) : Vote :=
  if thr ≤ pct then Vote.buy
  else if pct ≤ -thr then Vote.sell
  else Vote.abstain

/-- Inputs of one symbol evaluation: for each indicator its enabled flag
and, when the computation succeeded, the latest reading.  `none` models a
caught exception (or, for OI, fewer than two data points), which the code
logs and excludes from the vote. -/
structure IndicatorInputs where
  use_rsi : Bool
  rsi : Option ℚ
  rsi_oversold : ℚ
  rsi_overbought : ℚ
  use_ema : Bool
  ema : Option (ℚ × ℚ)
  use_macd : Bool
  macd_hist : Option ℚ
  use_oi : Bool
  oi_pct : Option ℚ
  oi_min_change_pct : ℚ

/-- The four indicator slots in the order the code evaluates them; each
slot is `none` when the indicator is disabled or failed, otherwise the
vote computed from its reading. -/
def indicatorOutcomes (i : IndicatorInputs) : List (Option Vote) :=
  [if i.use_rsi then i.rsi.map (fun lr => rsiVoteVal lr i.rsi_oversold i.rsi_overbought)
     else none,
   if i.use_ema then i.ema.map (fun p => emaVoteVal p.1 p.2) else none,
   if i.use_macd then i.macd_hist.map macdVoteVal else none,
   if i.use_oi then i.oi_pct.map (fun pct => oiVoteVal pct i.oi_min_change_pct) else none]

/-- `active`: the number of indicators that executed successfully
(abstaining ones included). -/
def activeCount (l : List (Option Vote)) : ℕ := l.countP (fun o => o.isSome)

/-- `votes["buy"]`. -/
def buyVotes (l : List (Option Vote)) : ℕ := l.countP (fun o => o == some Vote.buy)

/-- `votes["sell"]`. -/
def sellVotes (l : List (Option Vote)) : ℕ := l.countP (fun o => o == some Vote.sell)

/-- The aggregation step (`trading_core.py:700-705`): skip the symbol when
no indicator is active, otherwise form the two confirmation ratios. -/
def aggregateSignal (l : List (Option Vote)) : Option (ℚ × ℚ) :=
  if activeCount l = 0 then none
  else some ((buyVotes l : ℚ) / (activeCount l : ℚ), (sellVotes l : ℚ) / (activeCount l : ℚ))

theorem buyVotes_add_sellVotes_le_activeCount (l : List (Option Vote)) :
    buyVotes l + sellVotes l ≤ activeCount l := by
  induction l with
  | nil => simp [buyVotes, sellVotes, activeCount]
  | cons o l ih =>
    simp only [buyVotes, sellVotes, activeCount, List.countP_cons] at *
    cases o with
    | none => simpa using ih
    | some v => cases v <;> simp <;> omega

/-- C3 (confirmed): `active` counts exactly the indicator slots that
executed successfully (abstaining ones included); when `active = 0` the
symbol is skipped with no signal; and when `active > 0` the signal is the
pair `buy_votes / active`, `sell_votes / active`, whose sum is at most 1. -/
theorem claim_C3 (i : IndicatorInputs) :
    activeCount (indicatorOutcomes i) =
      (cond (i.use_rsi && i.rsi.isSome) 1 0) + (cond (i.use_ema && i.ema.isSome) 1 0)
      + (cond (i.use_macd && i.macd_hist.isSome) 1 0)
      + (cond (i.use_oi && i.oi_pct.isSome) 1 0)
    ∧ (activeCount (indicatorOutcomes i) = 0 → aggregateSignal (indicatorOutcomes i) = none)
    ∧ (0 < activeCount (indicatorOutcomes i) →
        aggregateSignal (indicatorOutcomes i) =
          some ((buyVotes (indicatorOutcomes i) : ℚ) / (activeCount (indicatorOutcomes i) : ℚ),
                (sellVotes (indicatorOutcomes i) : ℚ) / (activeCount (indicatorOutcomes i) : ℚ))
        ∧ (buyVotes (indicatorOutcomes i) : ℚ) / (activeCount (indicatorOutcomes i) : ℚ)
            + (sellVotes (indicatorOutcomes i) : ℚ) / (activeCount (indicatorOutcomes i) : ℚ)
            ≤ 1) := by
  refine ⟨?_, ?_, ?_⟩
  · rcases i with ⟨ur, r, ov, ob, ue, e, um, mh, uo, op, ot⟩
    cases ur <;> cases ue <;> cases um <;> cases uo <;>
      cases r <;> cases e <;> cases mh <;> cases op <;>
        simp [indicatorOutcomes, activeCount, List.countP_cons]
  · intro h
    simp [aggregateSignal, h]
  · intro h
    have hne : activeCount (indicatorOutcomes i) ≠ 0 := Nat.pos_iff_ne_zero.mp h
    refine ⟨by simp [aggregateSignal, hne], ?_⟩
    have hle := buyVotes_add_sellVotes_le_activeCount (indicatorOutcomes i)
    have hpos : (0 : ℚ) < (activeCount (indicatorOutcomes i) : ℚ) := by
      exact_mod_cast h
    rw [div_add_div_same, div_le_one hpos]
    exact_mod_cast hle

/-- Concrete inputs witnessing `claim_C3`: RSI succeeded and abstained,
EMA voted buy, MACD voted buy, OI disabled. -/
def c3Inputs : IndicatorInputs :=
  ⟨true, some 50, 40, 60, true, some (2, 1), true, some 1, false, none, 5⟩

/-- Witness for `claim_C3`: three active indicators (one abstaining), so
`buy_ratio = 2/3`, `sell_ratio = 0`, and their sum is at most 1. -/
theorem claim_C3_witness :
    activeCount (indicatorOutcomes c3Inputs) = 3
    ∧ aggregateSignal (indicatorOutcomes c3Inputs) = some (2 / 3, 0)
    ∧ (buyVotes (indicatorOutcomes c3Inputs) : ℚ) / (activeCount (indicatorOutcomes c3Inputs) : ℚ)
        + (sellVotes (indicatorOutcomes c3Inputs) : ℚ) / (activeCount (indicatorOutcomes c3Inputs) : ℚ)
        ≤ 1 := by
  have h := claim_C3 c3Inputs
  have h3 := h.2.2 (by decide)
  refine ⟨by decide, ?_, h3.2⟩
  rw [h3.1]
  have hb : buyVotes (indicatorOutcomes c3Inputs) = 2 := by decide
  have hs : sellVotes (indicatorOutcomes c3Inputs) = 0 := by decide
  have ha : activeCount (indicatorOutcomes c3Inputs) = 3 := by decide
  rw [hb, hs, ha]
  norm_num

/-! ## EMA and MACD series (`trading_core.py:239-252`) and their votes (C8) -/

/-- `close.ewm(span=period, adjust=False).mean()`: the first output equals
the first input, and each further output is
`alpha * x + (1 - alpha) * previous` with `alpha = 2 / (span + 1)`. -/
def ema_series (xs : List ℚ) (span : ℕ) : List ℚ :=
  match xs with
  | [] => []
  | c :: cs =>
      List.scanl (fun prev x => (2 / (span + 1)) * x + (1 - 2 / (span + 1)) * prev) c cs

/-- `macd_hist_series` (`trading_core.py:244-252`): the histogram is
`macd - signal` where `macd = ema(fast) - ema(slow)` and `signal` is the
EWM mean of the `macd` series with the signal span. -/
def macd_hist_series (close : List ℚ) (fast slow signal_span : ℕ) : List ℚ :=
  let f := ema_series close fast
  let s := ema_series close slow
  let macd := List.zipWith (fun a b => a - b) f s
  let sig := ema_series macd signal_span
  List.zipWith (fun a b => a - b) macd sig

/-- The EMA-cross indicator of the analysis loop
(`trading_core.py:644-660`): compare the latest fast and slow EMA values;
`none` when a latest value does not exist (empty series raises, caught by
the surrounding `except`). -/
def ema_vote (close : List ℚ) (fast slow : ℕ) : Option Vote :=
  match (ema_series close fast).getLast?, (ema_series close slow).getLast? with
  | some lf, some ls => some (emaVoteVal lf ls)
  | _, _ => none

/-- The MACD indicator of the analysis loop (`trading_core.py:662-676`):
vote on the latest histogram value. -/
def macd_vote (close : List ℚ) (mf ms sg : ℕ) : Option Vote :=
  match (macd_hist_series close mf ms sg).getLast? with
  | some hlast => some (macdVoteVal hlast)
  | none => none

theorem ema_series_length (xs : List ℚ) (span : ℕ) :
    (ema_series xs span).length = xs.length := by
  cases xs with
  | nil => rfl
  | cons c cs => simp [ema_series, List.length_scanl]

theorem macd_hist_series_length (close : List ℚ) (fast slow sg : ℕ) :
    (macd_hist_series close fast slow sg).length = close.length := by
  simp [macd_hist_series, ema_series_length, List.length_zipWith]

theorem getLast?_isSome_of_ne_nil {α : Type} (l : List α) (h : l ≠ []) :
    ∃ v, l.getLast? = some v := by
  cases l with
  | nil => exact absurd rfl h
  | cons x xs => exact ⟨(x :: xs).getLast (by simp), List.getLast?_eq_getLast _ (by simp)⟩

/-- C8 (confirmed): on every close series on which they execute, the
EMA-cross vote is buy iff the latest fast EMA strictly exceeds the latest
slow EMA and sell otherwise (ties resolve to sell), the MACD vote is buy
iff the latest histogram value is strictly positive and sell otherwise,
and neither indicator ever abstains or fails. -/
theorem claim_C8 (close : List ℚ) (fast slow mf ms sg : ℕ) (h : close ≠ []) :
    (ema_vote close fast slow).isSome = true
    ∧ ema_vote close fast slow ≠ some Vote.abstain
    ∧ (ema_vote close fast slow = some Vote.buy
        ↔ (ema_series close slow).getLast?.getD 0 < (ema_series close fast).getLast?.getD 0)
    ∧ (ema_vote close fast slow = some Vote.sell
        ↔ ¬ (ema_series close slow).getLast?.getD 0 < (ema_series close fast).getLast?.getD 0)
    ∧ (macd_vote close mf ms sg).isSome = true
    ∧ macd_vote close mf ms sg ≠ some Vote.abstain
    ∧ (macd_vote close mf ms sg = some Vote.buy
        ↔ 0 < (macd_hist_series close mf ms sg).getLast?.getD 0)
    ∧ (macd_vote close mf ms sg = some Vote.sell
        ↔ ¬ 0 < (macd_hist_series close mf ms sg).getLast?.getD 0) := by
  have hflen : ema_series close fast ≠ [] := by
    intro hnil
    have := ema_series_length close fast
    rw [hnil] at this
    exact h (List.eq_nil_of_length_eq_zero this.symm)
  have hslen : ema_series close slow ≠ [] := by
    intro hnil
    have := ema_series_length close slow
    rw [hnil] at this
    exact h (List.eq_nil_of_length_eq_zero this.symm)
  have hmlen : macd_hist_series close mf ms sg ≠ [] := by
    intro hnil
    have := macd_hist_series_length close mf ms sg
    rw [hnil] at this
    exact h (List.eq_nil_of_length_eq_zero this.symm)
  obtain ⟨lf, hlf⟩ := getLast?_isSome_of_ne_nil _ hflen
  obtain ⟨ls, hls⟩ := getLast?_isSome_of_ne_nil _ hslen
  obtain ⟨hl, hhl⟩ := getLast?_isSome_of_ne_nil _ hmlen
  simp only [ema_vote, macd_vote, hlf, hls, hhl, Option.getD_some]
  refine ⟨rfl, ?_, ?_, ?_, rfl, ?_, ?_, ?_⟩
  · unfold emaVoteVal; split <;> simp
  · unfold emaVoteVal
    by_cases hlt : ls < lf
    · simp [if_pos hlt, hlt]
    · simp [if_neg hlt, hlt]
  · unfold emaVoteVal
    by_cases hlt : ls < lf
    · simp [if_pos hlt, hlt]
    · simp [if_neg hlt, hlt]
  · unfold macdVoteVal; split <;> simp
  · unfold macdVoteVal
    by_cases hp : 0 < hl
    · simp [if_pos hp, hp]
    · simp [if_neg hp, hp]
  · unfold macdVoteVal
    by_cases hp : 0 < hl
    · simp [if_pos hp, hp]
    · simp [if_neg hp, hp]

/-- Witness for `claim_C8` on the close series `[1, 2]` with spans
`fast = 1`, `slow = 3`: the latest fast EMA is 2, the latest slow EMA is
3/2, so the EMA-cross indicator votes buy; both indicators produce a
vote. -/
theorem claim_C8_witness :
    (ema_vote [1, 2] 1 3).isSome = true
    ∧ ema_vote [1, 2] 1 3 = some Vote.buy
    ∧ (macd_vote [1, 2] 1 3 1).isSome = true := by
  have h := claim_C8 [1, 2] 1 3 1 3 1 (by simp)
  refine ⟨h.1, ?_, h.2.2.2.2.1⟩
  apply (h.2.2.1).mpr
  have h2 : ema_series [(1:ℚ), 2] 1 = [1, 2] := by
    norm_num [ema_series, List.scanl]
  have h3 : ema_series [(1:ℚ), 2] 3 = [1, 3/2] := by
    norm_num [ema_series, List.scanl]
  rw [h2, h3]
  norm_num

/-! ## Trade-mode policy (`trading_core.py:708-906`) -/

/-- The per-account settings consumed by the decision core of
`analyze_and_trade_for_user`, mirroring the keys read from
`settings.get(...)`: `ORDER_SIZE_USD`, `ORDER_PERCENT`, `QTY_PRECISION`,
`MIN_NOTIONAL`, `ENABLE_SHORTS`, `DEFAULT_LEVERAGE`, `DRY_RUN`, the two
confirmation-ratio thresholds, and `TRADE_MODE`. -/
structure Settings where
  order_size_usd : ℚ
  order_percent : ℚ
  qty_precision : ℕ
  min_notional : ℚ
  enable_shorts : Bool
  default_leverage : ℤ
  dry_run : Bool
  buy_threshold : ℚ
  sell_threshold : ℚ
  trade_mode : String
deriving DecidableEq

/-- `compute_order_usd` (`trading_core.py:720-724`): the fixed USD size
when positive, otherwise the configured percentage of the balance. -/
def compute_order_usd (s : Settings) (balance_usd : ℚ) : ℚ :=
  if s.order_size_usd ≤ 0 then balance_usd * (s.order_percent / 100)
  else s.order_size_usd

/-- The sized quantity used by every opening branch
(`trading_core.py:748-749` and parallels): `order_usd / price` when the
price is positive (else 0), floored to the configured precision. -/
def sized_qty (prec : ℕ) (order_usd price : ℚ) : ℚ :=
  floor_qty (if 0 < price then order_usd / price else 0) prec

/-- One dispatched-or-simulated action together with the journal record it
appends: the journal fields (market, side, action, qty, price, leverage,
dry marker) plus the `reduce_only` flag passed to the gateway.  An action
appears in the output list iff one journal record is appended, and a
gateway call is made for it iff `dry` is false. -/
structure TradeAction where
  market_type : String
  side : String
  action : String
  qty : ℚ
  price : ℚ
  reduce_only : Bool
  leverage : Option ℤ
  dry : Bool
deriving DecidableEq

/-- Spot buy branch (`trading_core.py:822-844`): requires the buy signal,
no open spot position and a non-futures-only mode, then the sizing gates
(positive capital, minimal notional). -/
def spotBuyBranch (trade_mode : String) (buy_threshold min_notional : ℚ) (dry_run : Bool)
    (spot_pos : Option TradeRecord) (buy_ratio order_usd qty price : ℚ) : List TradeAction :=
  if buy_threshold ≤ buy_ratio ∧ spot_pos = none ∧ trade_mode ≠ "futures_only" then
    if order_usd ≤ 0 then []
    else if qty * price < min_notional then []
    else [⟨"spot", "Buy", "", qty, price, false, none, dry_run⟩]
  else []

/-- Close-spot branch (`trading_core.py:846-861`): requires the sell
signal and an open spot position; the quantity is the recorded quantity of
that position, and non-positive recorded quantities abort the action. -/
def closeSpotBranch (trade_mode : String) (sell_threshold : ℚ) (dry_run : Bool)
    (spot_pos : Option TradeRecord) (sell_ratio price : ℚ) : List TradeAction :=
  match spot_pos with
  | none => []
  | some r =>
      if sell_threshold ≤ sell_ratio ∧ trade_mode ≠ "futures_only" then
        if qty_of r ≤ 0 then []
        else [⟨"spot", "Sell", "", qty_of r, price, false, none, dry_run⟩]
      else []

/-- Open-short branch (`trading_core.py:863-889`): requires the sell
signal, shorting enabled and no open short, then the sizing gates.  It
does not consult the spot position or the trade mode. -/
def openShortBranch (enable_shorts : Bool) (sell_threshold min_notional : ℚ)
    (default_leverage : ℤ) (dry_run : Bool)
    (short_pos : Option TradeRecord) (sell_ratio order_usd qty price : ℚ) : List TradeAction :=
  if sell_threshold ≤ sell_ratio ∧ enable_shorts = true ∧ short_pos = none then
    if order_usd ≤ 0 then []
    else if qty * price < min_notional then []
    else [⟨"futures", "Sell", "open", qty, price, false, some default_leverage, dry_run⟩]
  else []

/-- Close-short branch (`trading_core.py:891-906`): requires the buy
signal and an open short; the quantity is the recorded quantity of that
short, non-positive recorded quantities abort, and the gateway call uses
`reduce_only=True`. -/
def closeShortBranch (buy_threshold : ℚ) (dry_run : Bool)
    (short_pos : Option TradeRecord) (buy_ratio price : ℚ) : List TradeAction :=
  match short_pos with
  | none => []
  | some r =>
      if buy_threshold ≤ buy_ratio then
        if qty_of r ≤ 0 then []
        else [⟨"futures", "Buy", "close", qty_of r, price, true, none, dry_run⟩]
      else []

/-- Futures-only buy branch (`trading_core.py:740-776`): on a confirmed
buy signal passing the sizing gates, close an open short (reduce-only)
else open a long. -/
def futuresBuyBranch (buy_threshold min_notional : ℚ) (default_leverage : ℤ) (dry_run : Bool)
    (short_pos : Option TradeRecord) (buy_ratio order_usd qty price : ℚ) : List TradeAction :=
  if buy_threshold ≤ buy_ratio then
    if order_usd ≤ 0 then []
    else if qty * price < min_notional then []
    else
      match short_pos with
      | some _ => [⟨"futures", "Buy", "close", qty, price, true, none, dry_run⟩]
      | none => [⟨"futures", "Buy", "open", qty, price, false, some default_leverage, dry_run⟩]
  else []

/-- Futures-only sell branch (`trading_core.py:778-817`): on a confirmed
sell signal passing the sizing gates, close an open long (reduce-only)
else open a short. -/
def futuresSellBranch (sell_threshold min_notional : ℚ) (default_leverage : ℤ) (dry_run : Bool)
    (long_pos : Option TradeRecord) (sell_ratio order_usd qty price : ℚ) : List TradeAction :=
  if sell_threshold ≤ sell_ratio then
    if order_usd ≤ 0 then []
    else if qty * price < min_notional then []
    else
      match long_pos with
      | some _ => [⟨"futures", "Sell", "close", qty, price, true, none, dry_run⟩]
      | none => [⟨"futures", "Sell", "open", qty, price, false, some default_leverage, dry_run⟩]
  else []

/-- The per-symbol decision core of `analyze_and_trade_for_user`
(`trading_core.py:708-906`), given the aggregated confirmation ratios:
reconstruct the three positions from the journal, size the order, and run
either the futures-only branch pair or the mixed/spot branch quadruple.
The output lists the journal records appended this cycle in order. -/
def analyze_symbol (s : Settings) (uid symbol : String) (journal : List TradeRecord)
    (balance_usd price buy_ratio sell_ratio : ℚ) : List TradeAction :=
  let spot_pos := has_open_spot uid symbol journal
  let short_pos := has_open_futures_short uid symbol journal
  let long_pos := has_open_futures_long uid symbol journal
  let order_usd := compute_order_usd s balance_usd
  let qty := sized_qty s.qty_precision order_usd price
  if s.trade_mode = "futures_only" then
    futuresBuyBranch s.buy_threshold s.min_notional s.default_leverage s.dry_run
        short_pos buy_ratio order_usd qty price
      ++ futuresSellBranch s.sell_threshold s.min_notional s.default_leverage s.dry_run
        long_pos sell_ratio order_usd qty price
  else
    spotBuyBranch s.trade_mode s.buy_threshold s.min_notional s.dry_run
        spot_pos buy_ratio order_usd qty price
      ++ closeSpotBranch s.trade_mode s.sell_threshold s.dry_run spot_pos sell_ratio price
      ++ openShortBranch s.enable_shorts s.sell_threshold s.min_notional s.default_leverage
        s.dry_run short_pos sell_ratio order_usd qty price
      ++ closeShortBranch s.buy_threshold s.dry_run short_pos buy_ratio price

/-! ## Branch evaluation lemmas -/

theorem spotBuyBranch_not_confirmed (tm : String) (bt mn : ℚ) (dr : Bool)
    (sp : Option TradeRecord) (br ou q p : ℚ) (h : ¬ bt ≤ br) :
    spotBuyBranch tm bt mn dr sp br ou q p = [] := by
  unfold spotBuyBranch
  rw [if_neg]
  intro hc
  exact h hc.1

theorem spotBuyBranch_min_notional (tm : String) (bt mn : ℚ) (dr : Bool)
    (sp : Option TradeRecord) (br ou q p : ℚ) (h : q * p < mn) :
    spotBuyBranch tm bt mn dr sp br ou q p = [] := by
  unfold spotBuyBranch
  split_ifs with h1 h2 h3 <;> first | rfl | exact absurd h h3

theorem closeSpotBranch_fires (tm : String) (st : ℚ) (dr : Bool) (r : TradeRecord)
    (sr p : ℚ) (h1 : st ≤ sr) (h2 : tm ≠ "futures_only") (h3 : 0 < qty_of r) :
    closeSpotBranch tm st dr (some r) sr p
      = [⟨"spot", "Sell", "", qty_of r, p, false, none, dr⟩] := by
  show (if st ≤ sr ∧ tm ≠ "futures_only" then
          if qty_of r ≤ 0 then ([] : List TradeAction)
          else [⟨"spot", "Sell", "", qty_of r, p, false, none, dr⟩]
        else []) = [⟨"spot", "Sell", "", qty_of r, p, false, none, dr⟩]
  rw [if_pos ⟨h1, h2⟩, if_neg (not_le.mpr h3)]

theorem closeSpotBranch_qty_nonpos (tm : String) (st : ℚ) (dr : Bool) (r : TradeRecord)
    (sr p : ℚ) (h : qty_of r ≤ 0) :
    closeSpotBranch tm st dr (some r) sr p = [] := by
  show (if st ≤ sr ∧ tm ≠ "futures_only" then
          if qty_of r ≤ 0 then ([] : List TradeAction)
          else [⟨"spot", "Sell", "", qty_of r, p, false, none, dr⟩]
        else []) = []
  by_cases h1 : st ≤ sr ∧ tm ≠ "futures_only"
  · rw [if_pos h1, if_pos h]
  · rw [if_neg h1]

theorem openShortBranch_fires (es : Bool) (st mn : ℚ) (lev : ℤ) (dr : Bool)
    (sr ou q p : ℚ) (h1 : st ≤ sr) (h2 : es = true) (h4 : 0 < ou) (h5 : mn ≤ q * p) :
    openShortBranch es st mn lev dr none sr ou q p
      = [⟨"futures", "Sell", "open", q, p, false, some lev, dr⟩] := by
  unfold openShortBranch
  rw [if_pos ⟨h1, h2, rfl⟩, if_neg (not_le.mpr h4), if_neg (not_lt.mpr h5)]

theorem openShortBranch_min_notional (es : Bool) (st mn : ℚ) (lev : ℤ) (dr : Bool)
    (sp : Option TradeRecord) (sr ou q p : ℚ) (h : q * p < mn) :
    openShortBranch es st mn lev dr sp sr ou q p = [] := by
  unfold openShortBranch
  split_ifs with h1 h2 h3 <;> first | rfl | exact absurd h h3

theorem closeShortBranch_fires (bt : ℚ) (dr : Bool) (r : TradeRecord) (br p : ℚ)
    (h1 : bt ≤ br) (h2 : 0 < qty_of r) :
    closeShortBranch bt dr (some r) br p
      = [⟨"futures", "Buy", "close", qty_of r, p, true, none, dr⟩] := by
  show (if bt ≤ br then
          if qty_of r ≤ 0 then ([] : List TradeAction)
          else [⟨"futures", "Buy", "close", qty_of r, p, true, none, dr⟩]
        else []) = [⟨"futures", "Buy", "close", qty_of r, p, true, none, dr⟩]
  rw [if_pos h1, if_neg (not_le.mpr h2)]

theorem closeShortBranch_qty_nonpos (bt : ℚ) (dr : Bool) (r : TradeRecord) (br p : ℚ)
    (h : qty_of r ≤ 0) :
    closeShortBranch bt dr (some r) br p = [] := by
  show (if bt ≤ br then
          if qty_of r ≤ 0 then ([] : List TradeAction)
          else [⟨"futures", "Buy", "close", qty_of r, p, true, none, dr⟩]
        else []) = []
  by_cases h1 : bt ≤ br
  · rw [if_pos h1, if_pos h]
  · rw [if_neg h1]

theorem futuresBuyBranch_close (bt mn : ℚ) (lev : ℤ) (dr : Bool) (r : TradeRecord)
    (br ou q p : ℚ) (h1 : bt ≤ br) (h2 : 0 < ou) (h3 : mn ≤ q * p) :
    futuresBuyBranch bt mn lev dr (some r) br ou q p
      = [⟨"futures", "Buy", "close", q, p, true, none, dr⟩] := by
  unfold futuresBuyBranch
  rw [if_pos h1, if_neg (not_le.mpr h2), if_neg (not_lt.mpr h3)]

theorem futuresBuyBranch_open (bt mn : ℚ) (lev : ℤ) (dr : Bool)
    (br ou q p : ℚ) (h1 : bt ≤ br) (h2 : 0 < ou) (h3 : mn ≤ q * p) :
    futuresBuyBranch bt mn lev dr none br ou q p
      = [⟨"futures", "Buy", "open", q, p, false, some lev, dr⟩] := by
  unfold futuresBuyBranch
  rw [if_pos h1, if_neg (not_le.mpr h2), if_neg (not_lt.mpr h3)]

theorem futuresBuyBranch_min_notional (bt mn : ℚ) (lev : ℤ) (dr : Bool)
    (sp : Option TradeRecord) (br ou q p : ℚ) (h : q * p < mn) :
    futuresBuyBranch bt mn lev dr sp br ou q p = [] := by
  unfold futuresBuyBranch
  split_ifs with h1 h2 h3 <;> first | rfl | exact absurd h h3

theorem futuresSellBranch_min_notional (st mn : ℚ) (lev : ℤ) (dr : Bool)
    (lp : Option TradeRecord) (sr ou q p : ℚ) (h : q * p < mn) :
    futuresSellBranch st mn lev dr lp sr ou q p = [] := by
  unfold futuresSellBranch
  split_ifs with h1 h2 h3 <;> first | rfl | exact absurd h h3

theorem futuresSellBranch_side (st mn : ℚ) (lev : ℤ) (dr : Bool)
    (lp : Option TradeRecord) (sr ou q p : ℚ) :
    ∀ a ∈ futuresSellBranch st mn lev dr lp sr ou q p, a.side = "Sell" := by
  intro a ha
  unfold futuresSellBranch at ha
  cases lp <;> split_ifs at ha <;> simp_all

theorem mem_spotBuyBranch_fields (tm : String) (bt mn : ℚ) (dr : Bool)
    (sp : Option TradeRecord) (br ou q p : ℚ) :
    ∀ a ∈ spotBuyBranch tm bt mn dr sp br ou q p,
      a.market_type = "spot" ∧ a.side = "Buy" := by
  intro a ha
  unfold spotBuyBranch at ha
  split_ifs at ha <;> simp_all

theorem mem_closeSpotBranch_fields (tm : String) (st : ℚ) (dr : Bool)
    (sp : Option TradeRecord) (sr p : ℚ) :
    ∀ a ∈ closeSpotBranch tm st dr sp sr p,
      a.market_type = "spot" ∧ a.side = "Sell" := by
  intro a ha
  unfold closeSpotBranch at ha
  cases sp <;> split_ifs at ha <;> simp_all

theorem mem_openShortBranch_fields (es : Bool) (st mn : ℚ) (lev : ℤ) (dr : Bool)
    (sp : Option TradeRecord) (sr ou q p : ℚ) :
    ∀ a ∈ openShortBranch es st mn lev dr sp sr ou q p,
      a.market_type = "futures" ∧ a.side = "Sell" ∧ a.action = "open" := by
  intro a ha
  unfold openShortBranch at ha
  split_ifs at ha <;> simp_all

theorem mem_closeShortBranch_fields (bt : ℚ) (dr : Bool)
    (sp : Option TradeRecord) (br p : ℚ) :
    ∀ a ∈ closeShortBranch bt dr sp br p,
      a.market_type = "futures" ∧ a.side = "Buy" ∧ a.action = "close" := by
  intro a ha
  unfold closeShortBranch at ha
  cases sp <;> split_ifs at ha <;> simp_all

/-! ## C2: mixed mode, sell signal with an open spot position -/

/-- Settings used by the C2 counterexample: mixed mode, shorts enabled,
sell always confirmed, buy never confirmed, fixed 100 USD orders at
precision 0 with a 1 USD minimum notional. -/
def c2Settings : Settings := ⟨100, 10, 0, 1, true, 3, false, 1, 0, "mixed"⟩

/-- Journal of the C2 counterexample: one open spot position of 2 units. -/
def c2Journal : List TradeRecord :=
  [⟨"1", "BTCUSDT", "spot", "Buy", "", some 2, 1, none, "2026-01-01T00:00:00", false⟩]

/-- C2 (counterexample): in mixed mode with the sell signal confirmed and
a spot position open, the cycle emits BOTH the spot close and a futures
short open for the same symbol: the open-short branch is a separate `if`,
not an `else` of the spot-close branch, and it does not consult the spot
position.  Two sell-direction actions are journaled in one cycle. -/
theorem claim_C2_cex :
    analyze_symbol c2Settings "1" "BTCUSDT" c2Journal 0 1 0 1
      = [⟨"spot", "Sell", "", 2, 1, false, none, false⟩,
         ⟨"futures", "Sell", "open", 100, 1, false, some 3, false⟩] := by
  have hspot : has_open_spot "1" "BTCUSDT" c2Journal
      = some ⟨"1", "BTCUSDT", "spot", "Buy", "", some 2, 1, none, "2026-01-01T00:00:00", false⟩ := by
    decide
  have hshort : has_open_futures_short "1" "BTCUSDT" c2Journal = none := by decide
  have hou : compute_order_usd c2Settings 0 = 100 := by
    norm_num [compute_order_usd, c2Settings]
  have hq : sized_qty c2Settings.qty_precision 100 1 = 100 := by
    norm_num [sized_qty, floor_qty, c2Settings]
  simp only [analyze_symbol, hspot, hshort, hou, hq]
  rw [if_neg (by decide : ¬ c2Settings.trade_mode = "futures_only")]
  rw [spotBuyBranch_not_confirmed _ _ _ _ _ _ _ _ _ (by norm_num [c2Settings]),
      closeSpotBranch_fires _ _ _ _ _ _ (by norm_num [c2Settings]) (by decide)
        (by norm_num [qty_of]),
      openShortBranch_fires c2Settings.enable_shorts _ _ _ _ _ _ _ _
        (by norm_num [c2Settings]) (by decide) (by norm_num) (by norm_num [c2Settings])]
  rfl

/-- C2 (amended): in mixed mode, when the sell signal is confirmed (and
the buy signal is not) and a spot position with positive recorded
quantity is open, the spot position is closed; but the open-futures-short
branch is independent of the spot position: whenever shorting is enabled,
no short is open and the sizing gates pass, it also executes in the same
cycle, so the cycle emits exactly the spot close followed by the futures
short open — two actions for the sell direction. -/
theorem claim_C2 (s : Settings) (uid sym : String) (j : List TradeRecord)
    (bal price br sr : ℚ)
    (hm : s.trade_mode = "mixed")
    (hsr : s.sell_threshold ≤ sr) (hbr : br < s.buy_threshold)
    (r : TradeRecord) (hspot : has_open_spot uid sym j = some r) (hq : 0 < qty_of r)
    (hes : s.enable_shorts = true) (hshort : has_open_futures_short uid sym j = none)
    (hou : 0 < compute_order_usd s bal)
    (hmn : s.min_notional ≤ sized_qty s.qty_precision (compute_order_usd s bal) price * price) :
    analyze_symbol s uid sym j bal price br sr
      = [⟨"spot", "Sell", "", qty_of r, price, false, none, s.dry_run⟩,
         ⟨"futures", "Sell", "open", sized_qty s.qty_precision (compute_order_usd s bal) price,
          price, false, some s.default_leverage, s.dry_run⟩] := by
  have hmode : ¬ s.trade_mode = "futures_only" := by rw [hm]; decide
  simp only [analyze_symbol, hspot, hshort]
  rw [if_neg hmode]
  rw [spotBuyBranch_not_confirmed _ _ _ _ _ _ _ _ _ (not_le.mpr hbr),
      closeSpotBranch_fires _ _ _ _ _ _ hsr hmode hq,
      openShortBranch_fires _ _ _ _ _ _ _ _ _ hsr hes hou hmn]
  rfl

/-- Settings for the C2 witness. -/
def c2wSettings : Settings := ⟨50, 10, 0, 1, true, 5, true, 1, 0, "mixed"⟩

/-- Journal for the C2 witness: one open spot position of 3 units. -/
def c2wJournal : List TradeRecord :=
  [⟨"7", "ETHUSDT", "spot", "Buy", "", some 3, 1, none, "2026-02-01T00:00:00", false⟩]

/-- Witness for `claim_C2` at concrete inputs. -/
theorem claim_C2_witness :
    analyze_symbol c2wSettings "7" "ETHUSDT" c2wJournal 0 1 0 1
      = [⟨"spot", "Sell", "", 3, 1, false, none, true⟩,
         ⟨"futures", "Sell", "open",
          sized_qty c2wSettings.qty_precision (compute_order_usd c2wSettings 0) 1,
          1, false, some 5, true⟩] := by
  have h := claim_C2 c2wSettings "7" "ETHUSDT" c2wJournal 0 1 0 1 rfl
    (by norm_num [c2wSettings]) (by norm_num [c2wSettings])
    ⟨"7", "ETHUSDT", "spot", "Buy", "", some 3, 1, none, "2026-02-01T00:00:00", false⟩
    (by decide) (by norm_num [qty_of]) rfl (by decide)
    (by norm_num [compute_order_usd, c2wSettings])
    (by norm_num [sized_qty, floor_qty, compute_order_usd, c2wSettings])
  exact h

/-! ## C4: spot_only does not suppress the futures-short branch -/

theorem spotBuyBranch_mode_irrelevant (m1 m2 : String)
    (hm1 : m1 ≠ "futures_only") (hm2 : m2 ≠ "futures_only")
    (bt mn : ℚ) (dr : Bool) (sp : Option TradeRecord) (br ou q p : ℚ) :
    spotBuyBranch m1 bt mn dr sp br ou q p = spotBuyBranch m2 bt mn dr sp br ou q p := by
  unfold spotBuyBranch
  by_cases hc : bt ≤ br ∧ sp = none
  · have hp1 : bt ≤ br ∧ sp = none ∧ m1 ≠ "futures_only" := ⟨hc.1, hc.2, hm1⟩
    have hp2 : bt ≤ br ∧ sp = none ∧ m2 ≠ "futures_only" := ⟨hc.1, hc.2, hm2⟩
    rw [if_pos hp1, if_pos hp2]
  · have hp1 : ¬ (bt ≤ br ∧ sp = none ∧ m1 ≠ "futures_only") := fun hx => hc ⟨hx.1, hx.2.1⟩
    have hp2 : ¬ (bt ≤ br ∧ sp = none ∧ m2 ≠ "futures_only") := fun hx => hc ⟨hx.1, hx.2.1⟩
    rw [if_neg hp1, if_neg hp2]

theorem closeSpotBranch_not_confirmed (tm : String) (st : ℚ) (dr : Bool)
    (sp : Option TradeRecord) (sr p : ℚ) (h : ¬ st ≤ sr) :
    closeSpotBranch tm st dr sp sr p = [] := by
  cases sp with
  | none => rfl
  | some r =>
    show (if st ≤ sr ∧ tm ≠ "futures_only" then
            if qty_of r ≤ 0 then ([] : List TradeAction)
            else [⟨"spot", "Sell", "", qty_of r, p, false, none, dr⟩]
          else []) = []
    rw [if_neg fun hx => h hx.1]

theorem closeSpotBranch_mode_irrelevant (m1 m2 : String)
    (hm1 : m1 ≠ "futures_only") (hm2 : m2 ≠ "futures_only")
    (st : ℚ) (dr : Bool) (sp : Option TradeRecord) (sr p : ℚ) :
    closeSpotBranch m1 st dr sp sr p = closeSpotBranch m2 st dr sp sr p := by
  cases sp with
  | none => rfl
  | some r =>
    by_cases hc : st ≤ sr
    · by_cases hq : qty_of r ≤ 0
      · rw [closeSpotBranch_qty_nonpos m1 st dr r sr p hq,
            closeSpotBranch_qty_nonpos m2 st dr r sr p hq]
      · rw [closeSpotBranch_fires m1 st dr r sr p hc hm1 (not_le.mp hq),
            closeSpotBranch_fires m2 st dr r sr p hc hm2 (not_le.mp hq)]
    · rw [closeSpotBranch_not_confirmed m1 st dr (some r) sr p hc,
          closeSpotBranch_not_confirmed m2 st dr (some r) sr p hc]

/-- Any two settings agreeing on every field except the trade mode, with
neither mode equal to `"futures_only"`, produce identical cycle output. -/
theorem analyze_symbol_mode_irrelevant (s s' : Settings)
    (hfields : s.order_size_usd = s'.order_size_usd ∧ s.order_percent = s'.order_percent
      ∧ s.qty_precision = s'.qty_precision ∧ s.min_notional = s'.min_notional
      ∧ s.enable_shorts = s'.enable_shorts ∧ s.default_leverage = s'.default_leverage
      ∧ s.dry_run = s'.dry_run ∧ s.buy_threshold = s'.buy_threshold
      ∧ s.sell_threshold = s'.sell_threshold)
    (hm1 : s.trade_mode ≠ "futures_only") (hm2 : s'.trade_mode ≠ "futures_only")
    (uid sym : String) (j : List TradeRecord) (bal price br sr : ℚ) :
    analyze_symbol s uid sym j bal price br sr = analyze_symbol s' uid sym j bal price br sr := by
  obtain ⟨h1, h2, h3, h4, h5, h6, h7, h8, h9⟩ := hfields
  have hcou : compute_order_usd s bal = compute_order_usd s' bal := by
    unfold compute_order_usd
    rw [h1, h2]
  simp only [analyze_symbol, if_neg hm1, if_neg hm2]
  rw [h3, h4, h5, h6, h7, h8, h9, hcou]
  rw [spotBuyBranch_mode_irrelevant s.trade_mode s'.trade_mode hm1 hm2,
      closeSpotBranch_mode_irrelevant s.trade_mode s'.trade_mode hm1 hm2]

/-- C4 (confirmed): in `spot_only` mode the cycle output is identical to
`mixed` mode on every input — in particular, when the sell signal is
confirmed, shorting is enabled, no short is open and the sizing gates
pass, a futures short is opened exactly as in `mixed` mode. -/
theorem claim_C4 (s : Settings) (uid sym : String) (j : List TradeRecord)
    (bal price br sr : ℚ) (hm : s.trade_mode = "spot_only") :
    analyze_symbol s uid sym j bal price br sr
      = analyze_symbol { s with trade_mode := "mixed" } uid sym j bal price br sr
    ∧ (s.sell_threshold ≤ sr → s.enable_shorts = true →
        has_open_futures_short uid sym j = none →
        0 < compute_order_usd s bal →
        s.min_notional ≤ sized_qty s.qty_precision (compute_order_usd s bal) price * price →
        (⟨"futures", "Sell", "open", sized_qty s.qty_precision (compute_order_usd s bal) price,
          price, false, some s.default_leverage, s.dry_run⟩ : TradeAction)
          ∈ analyze_symbol s uid sym j bal price br sr) := by
  have hm1 : s.trade_mode ≠ "futures_only" := by rw [hm]; decide
  constructor
  · exact analyze_symbol_mode_irrelevant s { s with trade_mode := "mixed" }
      ⟨rfl, rfl, rfl, rfl, rfl, rfl, rfl, rfl, rfl⟩ hm1
      (show ("mixed" : String) ≠ "futures_only" by decide) uid sym j bal price br sr
  · intro hsr hes hshort hou hmn
    simp only [analyze_symbol, if_neg hm1, hshort]
    rw [openShortBranch_fires s.enable_shorts _ _ _ _ _ _ _ _ hsr hes hou hmn]
    simp [List.mem_append]

/-- Settings for the C4 witness: `spot_only` mode with shorts enabled. -/
def c4Settings : Settings := ⟨100, 10, 0, 1, true, 3, true, 1, 0, "spot_only"⟩

/-- Witness for `claim_C4` on an empty journal: the `spot_only` output
equals the `mixed` output, and the futures short open is emitted. -/
theorem claim_C4_witness :
    analyze_symbol c4Settings "1" "BTCUSDT" [] 1000 1 0 1
      = analyze_symbol { c4Settings with trade_mode := "mixed" } "1" "BTCUSDT" [] 1000 1 0 1
    ∧ (⟨"futures", "Sell", "open",
        sized_qty c4Settings.qty_precision (compute_order_usd c4Settings 1000) 1,
        1, false, some c4Settings.default_leverage, c4Settings.dry_run⟩ : TradeAction)
        ∈ analyze_symbol c4Settings "1" "BTCUSDT" [] 1000 1 0 1 := by
  have h := claim_C4 c4Settings "1" "BTCUSDT" [] 1000 1 0 1 rfl
  exact ⟨h.1, h.2 (by norm_num [c4Settings]) rfl rfl
    (by norm_num [compute_order_usd, c4Settings])
    (by norm_num [sized_qty, floor_qty, compute_order_usd, c4Settings])⟩

/-! ## C5: futures_only buy — closing a short takes precedence -/

/-- C5 (confirmed): in `futures_only` mode with the buy signal confirmed
and the sizing gates passed, if a short is open the cycle closes it (side
buy, action close, reduce-only) and emits no long-opening action at all;
if no short is open and no long is open, it opens a futures long (side
buy, action open). -/
theorem claim_C5 (s : Settings) (uid sym : String) (j : List TradeRecord)
    (bal price br sr : ℚ)
    (hm : s.trade_mode = "futures_only") (hb : s.buy_threshold ≤ br)
    (hou : 0 < compute_order_usd s bal)
    (hmn : s.min_notional ≤ sized_qty s.qty_precision (compute_order_usd s bal) price * price) :
    (∀ r, has_open_futures_short uid sym j = some r →
      (⟨"futures", "Buy", "close", sized_qty s.qty_precision (compute_order_usd s bal) price,
        price, true, none, s.dry_run⟩ : TradeAction)
          ∈ analyze_symbol s uid sym j bal price br sr
      ∧ ∀ a ∈ analyze_symbol s uid sym j bal price br sr,
          ¬ (a.side = "Buy" ∧ a.action = "open"))
    ∧ (has_open_futures_short uid sym j = none →
        has_open_futures_long uid sym j = none →
        (⟨"futures", "Buy", "open", sized_qty s.qty_precision (compute_order_usd s bal) price,
          price, false, some s.default_leverage, s.dry_run⟩ : TradeAction)
          ∈ analyze_symbol s uid sym j bal price br sr) := by
  constructor
  · intro r hr
    constructor
    · simp only [analyze_symbol, if_pos hm, hr]
      rw [futuresBuyBranch_close _ _ _ _ _ _ _ _ _ hb hou hmn]
      simp [List.mem_append]
    · intro a ha
      simp only [analyze_symbol, if_pos hm, hr] at ha
      rw [futuresBuyBranch_close _ _ _ _ _ _ _ _ _ hb hou hmn] at ha
      rcases List.mem_append.mp ha with hl | hl
      · simp at hl
        subst hl
        simp
      · intro hcon
        have hside := futuresSellBranch_side _ _ _ _ _ _ _ _ _ a hl
        rw [hside] at hcon
        exact absurd hcon.1 (by decide)
  · intro hshort hlong
    simp only [analyze_symbol, if_pos hm, hshort]
    rw [futuresBuyBranch_open _ _ _ _ _ _ _ _ hb hou hmn]
    simp [List.mem_append]

/-- Settings for the C5 witness: `futures_only` mode. -/
def c5Settings : Settings := ⟨100, 10, 0, 1, true, 3, true, 1, 0, "futures_only"⟩

/-- Journal for the C5 witness: an open futures short of 5 units. -/
def c5Journal : List TradeRecord :=
  [⟨"1", "BTCUSDT", "futures", "Sell", "open", some 5, 1, some 3, "2026-01-01T00:00:00", false⟩]

/-- Witness for `claim_C5`: with a short open, the close-short action is
emitted. -/
theorem claim_C5_witness :
    (⟨"futures", "Buy", "close",
      sized_qty c5Settings.qty_precision (compute_order_usd c5Settings 0) 1,
      1, true, none, c5Settings.dry_run⟩ : TradeAction)
      ∈ analyze_symbol c5Settings "1" "BTCUSDT" c5Journal 0 1 1 0 := by
  have h := claim_C5 c5Settings "1" "BTCUSDT" c5Journal 0 1 1 0 rfl
    (by norm_num [c5Settings])
    (by norm_num [compute_order_usd, c5Settings])
    (by norm_num [sized_qty, floor_qty, compute_order_usd, c5Settings])
  exact (h.1 ⟨"1", "BTCUSDT", "futures", "Sell", "open", some 5, 1, some 3,
    "2026-01-01T00:00:00", false⟩ (by decide)).1

/-! ## C6: minimum-notional gating -/

/-- Settings for the C6 counterexample: mixed mode, shorts disabled, buy
never confirmed, sell always confirmed, minimum notional 5. -/
def c6Settings : Settings := ⟨1, 10, 0, 5, false, 3, false, 1, 0, "mixed"⟩

/-- Journal for the C6 counterexample: an open spot position of 2 units
bought at price 1. -/
def c6Journal : List TradeRecord :=
  [⟨"1", "BTCUSDT", "spot", "Buy", "", some 2, 1, none, "2026-01-01T00:00:00", false⟩]

/-- C6 (counterexample): the spot-close candidate has quantity 2 at price
1, so `qty * price = 2 < 5 = min_notional`, yet the cycle dispatches the
order and appends a journal record for it: close actions bypass the
minimum-notional check, so the claim fails for this candidate order. -/
theorem claim_C6_cex :
    analyze_symbol c6Settings "1" "BTCUSDT" c6Journal 0 1 0 1
      = [⟨"spot", "Sell", "", 2, 1, false, none, false⟩]
    ∧ (2 : ℚ) * 1 < c6Settings.min_notional := by
  constructor
  · have hspot : has_open_spot "1" "BTCUSDT" c6Journal
        = some ⟨"1", "BTCUSDT", "spot", "Buy", "", some 2, 1, none,
            "2026-01-01T00:00:00", false⟩ := by
      decide
    have hshort : has_open_futures_short "1" "BTCUSDT" c6Journal = none := by decide
    simp only [analyze_symbol, hspot, hshort]
    rw [if_neg (by decide : ¬ c6Settings.trade_mode = "futures_only")]
    rw [spotBuyBranch_not_confirmed _ _ _ _ _ _ _ _ _ (by norm_num [c6Settings]),
        closeSpotBranch_fires _ _ _ _ _ _ (by norm_num [c6Settings]) (by decide)
          (by norm_num [qty_of])]
    have hos : openShortBranch c6Settings.enable_shorts c6Settings.sell_threshold
        c6Settings.min_notional c6Settings.default_leverage c6Settings.dry_run
        none 1 (compute_order_usd c6Settings 0)
        (sized_qty c6Settings.qty_precision (compute_order_usd c6Settings 0) 1) 1 = [] := by
      unfold openShortBranch
      rw [if_neg]
      intro hx
      exact absurd hx.2.1 (by decide)
    rw [hos]
    rfl
  · norm_num [c6Settings]

/-- C6 (amended): the minimum-notional gate governs exactly the candidates
whose quantity comes from the sizing computation (spot buy, mixed-mode
futures-short open, and both `futures_only` branches): when the sized
quantity times the price is below the configured minimum notional, each of
those branches emits nothing — no gateway call and no journal entry — and
every action the cycle can still emit is a close taking its quantity from
the journal (spot sell, or futures buy/close), which bypasses the check. -/
theorem claim_C6 (s : Settings) (uid sym : String) (j : List TradeRecord)
    (bal price br sr : ℚ)
    (h : sized_qty s.qty_precision (compute_order_usd s bal) price * price < s.min_notional) :
    spotBuyBranch s.trade_mode s.buy_threshold s.min_notional s.dry_run
        (has_open_spot uid sym j) br (compute_order_usd s bal)
        (sized_qty s.qty_precision (compute_order_usd s bal) price) price = []
    ∧ openShortBranch s.enable_shorts s.sell_threshold s.min_notional s.default_leverage
        s.dry_run (has_open_futures_short uid sym j) sr (compute_order_usd s bal)
        (sized_qty s.qty_precision (compute_order_usd s bal) price) price = []
    ∧ futuresBuyBranch s.buy_threshold s.min_notional s.default_leverage s.dry_run
        (has_open_futures_short uid sym j) br (compute_order_usd s bal)
        (sized_qty s.qty_precision (compute_order_usd s bal) price) price = []
    ∧ futuresSellBranch s.sell_threshold s.min_notional s.default_leverage s.dry_run
        (has_open_futures_long uid sym j) sr (compute_order_usd s bal)
        (sized_qty s.qty_precision (compute_order_usd s bal) price) price = []
    ∧ ∀ a ∈ analyze_symbol s uid sym j bal price br sr,
        (a.market_type = "spot" ∧ a.side = "Sell")
        ∨ (a.market_type = "futures" ∧ a.side = "Buy" ∧ a.action = "close") := by
  refine ⟨spotBuyBranch_min_notional _ _ _ _ _ _ _ _ _ h,
    openShortBranch_min_notional _ _ _ _ _ _ _ _ _ _ h,
    futuresBuyBranch_min_notional _ _ _ _ _ _ _ _ _ h,
    futuresSellBranch_min_notional _ _ _ _ _ _ _ _ _ h, ?_⟩
  intro a ha
  simp only [analyze_symbol] at ha
  by_cases hm : s.trade_mode = "futures_only"
  · rw [if_pos hm, futuresBuyBranch_min_notional _ _ _ _ _ _ _ _ _ h,
      futuresSellBranch_min_notional _ _ _ _ _ _ _ _ _ h] at ha
    simp at ha
  · rw [if_neg hm, spotBuyBranch_min_notional _ _ _ _ _ _ _ _ _ h,
      openShortBranch_min_notional _ _ _ _ _ _ _ _ _ _ h] at ha
    simp only [List.nil_append, List.append_nil] at ha
    rcases List.mem_append.mp ha with hl | hl
    · exact Or.inl (mem_closeSpotBranch_fields _ _ _ _ _ _ a hl)
    · exact Or.inr (mem_closeShortBranch_fields _ _ _ _ _ a hl)

/-- Settings for the C6 witness: sized quantity 1 at price 1 is below the
minimum notional of 5. -/
def c6wSettings : Settings := ⟨1, 10, 0, 5, true, 3, false, 0, 0, "mixed"⟩

/-- Witness for `claim_C6`: with the sized notional below the minimum,
all four sized branches of the cycle emit nothing. -/
theorem claim_C6_witness :
    spotBuyBranch c6wSettings.trade_mode c6wSettings.buy_threshold c6wSettings.min_notional
        c6wSettings.dry_run (has_open_spot "1" "BTCUSDT" []) 1 (compute_order_usd c6wSettings 0)
        (sized_qty c6wSettings.qty_precision (compute_order_usd c6wSettings 0) 1) 1 = []
    ∧ openShortBranch c6wSettings.enable_shorts c6wSettings.sell_threshold
        c6wSettings.min_notional c6wSettings.default_leverage c6wSettings.dry_run
        (has_open_futures_short "1" "BTCUSDT" []) 1 (compute_order_usd c6wSettings 0)
        (sized_qty c6wSettings.qty_precision (compute_order_usd c6wSettings 0) 1) 1 = []
    ∧ futuresBuyBranch c6wSettings.buy_threshold c6wSettings.min_notional
        c6wSettings.default_leverage c6wSettings.dry_run
        (has_open_futures_short "1" "BTCUSDT" []) 1 (compute_order_usd c6wSettings 0)
        (sized_qty c6wSettings.qty_precision (compute_order_usd c6wSettings 0) 1) 1 = []
    ∧ futuresSellBranch c6wSettings.sell_threshold c6wSettings.min_notional
        c6wSettings.default_leverage c6wSettings.dry_run
        (has_open_futures_long "1" "BTCUSDT" []) 1 (compute_order_usd c6wSettings 0)
        (sized_qty c6wSettings.qty_precision (compute_order_usd c6wSettings 0) 1) 1 = [] := by
  have h := claim_C6 c6wSettings "1" "BTCUSDT" [] 0 1 1 1
    (by norm_num [sized_qty, floor_qty, compute_order_usd, c6wSettings])
  exact ⟨h.1, h.2.1, h.2.2.1, h.2.2.2.1⟩

/-! ## C10: close actions use the recorded quantity and skip the notional gate -/

/-- C10 (confirmed): in `mixed` or `spot_only` mode, the spot-close and
close-short actions take their quantity from the `qty` field of the
most-recent open journal record; they are emitted for every value of the
configured minimum notional (the check is bypassed); and when the
recorded quantity is missing, zero or negative, no such close order is
dispatched and no journal entry for it is appended. -/
theorem claim_C10 (s : Settings) (uid sym : String) (j : List TradeRecord)
    (bal price br sr : ℚ)
    (hm : s.trade_mode = "mixed" ∨ s.trade_mode = "spot_only") :
    (∀ r, has_open_spot uid sym j = some r → s.sell_threshold ≤ sr →
      (0 < qty_of r → ∀ m : ℚ,
        (⟨"spot", "Sell", "", qty_of r, price, false, none, s.dry_run⟩ : TradeAction)
          ∈ analyze_symbol { s with min_notional := m } uid sym j bal price br sr)
      ∧ (qty_of r ≤ 0 → ∀ a ∈ analyze_symbol s uid sym j bal price br sr,
          ¬ (a.market_type = "spot" ∧ a.side = "Sell")))
    ∧ (∀ r, has_open_futures_short uid sym j = some r → s.buy_threshold ≤ br →
      (0 < qty_of r → ∀ m : ℚ,
        (⟨"futures", "Buy", "close", qty_of r, price, true, none, s.dry_run⟩ : TradeAction)
          ∈ analyze_symbol { s with min_notional := m } uid sym j bal price br sr)
      ∧ (qty_of r ≤ 0 → ∀ a ∈ analyze_symbol s uid sym j bal price br sr,
          ¬ (a.market_type = "futures" ∧ a.side = "Buy" ∧ a.action = "close"))) := by
  have hmf : ¬ s.trade_mode = "futures_only" := by
    rcases hm with h | h <;> rw [h] <;> decide
  constructor
  · intro r hr hsr
    constructor
    · intro hq m
      have hmf2 : ¬ ({ s with min_notional := m } : Settings).trade_mode = "futures_only" := hmf
      simp only [analyze_symbol, if_neg hmf2, hr]
      rw [closeSpotBranch_fires _ _ _ _ _ _ hsr hmf2 hq]
      simp [List.mem_append]
    · intro hq a ha
      simp only [analyze_symbol, if_neg hmf, hr] at ha
      rw [closeSpotBranch_qty_nonpos _ _ _ _ _ _ hq] at ha
      simp only [List.append_nil, List.nil_append] at ha
      rcases List.mem_append.mp ha with hl | hl
      · rcases List.mem_append.mp hl with hl2 | hl2
        · intro hcon
          have := mem_spotBuyBranch_fields _ _ _ _ _ _ _ _ _ a hl2
          rw [this.2] at hcon
          exact absurd hcon.2 (by decide)
        · intro hcon
          have := mem_openShortBranch_fields _ _ _ _ _ _ _ _ _ _ a hl2
          rw [this.1] at hcon
          exact absurd hcon.1 (by decide)
      · intro hcon
        have := mem_closeShortBranch_fields _ _ _ _ _ a hl
        rw [this.1] at hcon
        exact absurd hcon.1 (by decide)
  · intro r hr hbr
    constructor
    · intro hq m
      have hmf2 : ¬ ({ s with min_notional := m } : Settings).trade_mode = "futures_only" := hmf
      simp only [analyze_symbol, if_neg hmf2, hr]
      rw [closeShortBranch_fires _ _ _ _ _ hbr hq]
      simp [List.mem_append]
    · intro hq a ha
      simp only [analyze_symbol, if_neg hmf, hr] at ha
      rw [closeShortBranch_qty_nonpos _ _ _ _ _ hq] at ha
      simp only [List.append_nil, List.nil_append] at ha
      rcases List.mem_append.mp ha with hl | hl
      · rcases List.mem_append.mp hl with hl2 | hl2
        · intro hcon
          have := mem_spotBuyBranch_fields _ _ _ _ _ _ _ _ _ a hl2
          rw [this.1] at hcon
          exact absurd hcon.1 (by decide)
        · intro hcon
          have := mem_closeSpotBranch_fields _ _ _ _ _ _ a hl2
          rw [this.1] at hcon
          exact absurd hcon.1 (by decide)
      · intro hcon
        have := mem_openShortBranch_fields _ _ _ _ _ _ _ _ _ _ a hl
        rw [this.2.2] at hcon
        exact absurd hcon.2.2 (by decide)

/-- Settings for the C10 witness: mixed mode with a huge minimum notional
substituted, which must not block the close. -/
def c10Settings : Settings := ⟨100, 10, 0, 5, false, 3, false, 1, 0, "mixed"⟩

/-- Journal for the C10 witness: an open spot position of 2 units. -/
def c10Journal : List TradeRecord :=
  [⟨"9", "SOLUSDT", "spot", "Buy", "", some 2, 1, none, "2026-03-01T00:00:00", false⟩]

/-- Witness for `claim_C10`: the spot close with the recorded quantity 2
is emitted even when the minimum notional is raised to 1000000. -/
theorem claim_C10_witness :
    (⟨"spot", "Sell", "", qty_of ⟨"9", "SOLUSDT", "spot", "Buy", "", some 2, 1, none,
        "2026-03-01T00:00:00", false⟩, 1, false, none, c10Settings.dry_run⟩ : TradeAction)
      ∈ analyze_symbol { c10Settings with min_notional := 1000000 }
          "9" "SOLUSDT" c10Journal 0 1 0 1 :=
  ((claim_C10 c10Settings "9" "SOLUSDT" c10Journal 0 1 0 1 (Or.inl rfl)).1
    ⟨"9", "SOLUSDT", "spot", "Buy", "", some 2, 1, none, "2026-03-01T00:00:00", false⟩
    (by decide) (by norm_num [c10Settings])).1 (by norm_num [qty_of]) 1000000
